import Mathlib

/-!
Verification development for the carbon-cost repository
(backend `src/backend/app.py`: an append-only emission store with three
HTTP endpoints `/record`, `/stats`, `/latest_co2_badge`).

The backend is embedded shallowly: the SQLAlchemy table becomes a Lean
list of `Emission` records, each Flask handler becomes a pure Lean
function from the store (and the request payload) to the new store and
the JSON response.  Python `float` is modelled by `Rat`, Python `int`
by `Int`, and `datetime` by the `PyDateTime` structure below together
with executable models of `datetime.fromisoformat`,
`datetime.isoformat` and datetime comparison.
-/

namespace CarbonCost

/-! ### Model of Python `datetime` -/

/-- Model of a Python `datetime.datetime` value: calendar fields plus an
optional UTC offset in minutes (`none` models a naive datetime). -/
structure PyDateTime where
  year : Nat
  month : Nat
  day : Nat
  hour : Nat
  minute : Nat
  second : Nat
  microsecond : Nat
  tzOffsetMinutes : Option Int
deriving DecidableEq, Repr

def isLeap (y : Nat) : Bool :=
  y % 4 == 0 && (y % 100 != 0 || y % 400 == 0)

def daysInMonth (y m : Nat) : Nat :=
  if m = 2 then (if isLeap y then 29 else 28)
  else if m = 4 ∨ m = 6 ∨ m = 9 ∨ m = 11 then 30
  else 31

/-- Numeric value of a decimal digit character. -/
def digVal (c : Char) : Nat := c.toNat - '0'.toNat

/-- The decimal digit character for `n % 10`. -/
def digitChar (n : Nat) : Char := Char.ofNat ('0'.toNat + n % 10)

/-- Parse two decimal digit characters as a two-digit number. -/
def d2 (a b : Char) : Option Nat :=
  if a.isDigit ∧ b.isDigit then some (digVal a * 10 + digVal b) else none

/-- Parse four decimal digit characters as a four-digit number. -/
def d4 (a b c d : Char) : Option Nat :=
  if a.isDigit ∧ b.isDigit ∧ c.isDigit ∧ d.isDigit then
    some (((digVal a * 10 + digVal b) * 10 + digVal c) * 10 + digVal d)
  else none

/-- Value of a list of decimal digit characters, most significant first. -/
def digitsVal (l : List Char) : Nat := l.foldl (fun a c => a * 10 + digVal c) 0

/-- Parse a `YYYY-MM-DD` prefix, returning the remaining characters.
Validates the calendar date the way Python's `datetime` does
(year in 1..9999, month in 1..12, day within the month). -/
def parseDate : List Char → Option (Nat × Nat × Nat × List Char)
  | a :: b :: c :: d :: '-' :: e :: f :: '-' :: g :: h :: rest => do
      let y ← d4 a b c d
      let mo ← d2 e f
      let dy ← d2 g h
      if 1 ≤ y ∧ 1 ≤ mo ∧ mo ≤ 12 ∧ 1 ≤ dy ∧ dy ≤ daysInMonth y mo then
        some (y, mo, dy, rest)
      else none
  | _ => none

/-- Parse a `HH:MM[:SS[.ffffff]]` prefix (as accepted by
`datetime.fromisoformat`), returning hour, minute, second, microsecond
and the remaining characters. -/
def parseHMS : List Char → Option (Nat × Nat × Nat × Nat × List Char)
  | a :: b :: ':' :: c :: d :: rest => do
      let h ← d2 a b
      let mi ← d2 c d
      if h < 24 ∧ mi < 60 then
        match rest with
        | ':' :: e :: f :: rest2 => do
            let s ← d2 e f
            if s < 60 then
              match rest2 with
              | '.' :: rest3 =>
                  let ds := rest3.takeWhile Char.isDigit
                  let rest4 := rest3.dropWhile Char.isDigit
                  if 1 ≤ ds.length ∧ ds.length ≤ 6 then
                    some (h, mi, s, digitsVal ds * 10 ^ (6 - ds.length), rest4)
                  else none
              | _ => some (h, mi, s, 0, rest2)
            else none
        | _ => some (h, mi, 0, 0, rest)
      else none
  | _ => none

/-- Parse a `±HH:MM` UTC-offset suffix, in minutes. -/
def parseOffset : List Char → Option (Int × List Char)
  | '+' :: a :: b :: ':' :: c :: d :: rest => do
      let h ← d2 a b
      let m ← d2 c d
      if h < 24 ∧ m < 60 then some ((h * 60 + m : Nat), rest) else none
  | '-' :: a :: b :: ':' :: c :: d :: rest => do
      let h ← d2 a b
      let m ← d2 c d
      if h < 24 ∧ m < 60 then some (-((h * 60 + m : Nat) : Int), rest) else none
  | _ => none

/-- Model of Python `datetime.fromisoformat` on a character list:
a date, optionally followed by a `T` or space separator, a time, and a
UTC offset.  Returns `none` exactly where Python raises `ValueError`. -/
def fromisoformatList (cs : List Char) : Option PyDateTime := do
  let (y, mo, dy, rest) ← parseDate cs
  match rest with
  | [] => some ⟨y, mo, dy, 0, 0, 0, 0, none⟩
  | sep :: rest2 =>
      if sep = 'T' ∨ sep = ' ' then do
        let (h, mi, s, us, rest3) ← parseHMS rest2
        match rest3 with
        | [] => some ⟨y, mo, dy, h, mi, s, us, none⟩
        | _ => do
            let (off, rest4) ← parseOffset rest3
            if rest4 = [] then some ⟨y, mo, dy, h, mi, s, us, some off⟩
            else none
      else none

def fromisoformat (s : String) : Option PyDateTime := fromisoformatList s.data

/-- Two-digit zero-padded decimal rendering (of `n % 100`). -/
def pad2 (n : Nat) : List Char := [digitChar (n / 10), digitChar n]

/-- Four-digit zero-padded decimal rendering (of `n % 10000`). -/
def pad4 (n : Nat) : List Char :=
  [digitChar (n / 1000), digitChar (n / 100), digitChar (n / 10), digitChar n]

/-- Six-digit zero-padded decimal rendering (of `n % 1000000`). -/
def pad6 (n : Nat) : List Char :=
  [digitChar (n / 100000), digitChar (n / 10000), digitChar (n / 1000),
   digitChar (n / 100), digitChar (n / 10), digitChar n]

/-- Model of Python `datetime.isoformat`: `YYYY-MM-DDTHH:MM:SS`, with
`.ffffff` appended when the microsecond field is nonzero and `±HH:MM`
appended when the datetime is aware. -/
def isoformatList (dt : PyDateTime) : List Char :=
  pad4 dt.year ++ ['-'] ++ pad2 dt.month ++ ['-'] ++ pad2 dt.day ++ ['T'] ++
  pad2 dt.hour ++ [':'] ++ pad2 dt.minute ++ [':'] ++ pad2 dt.second ++
  (if dt.microsecond = 0 then [] else ['.'] ++ pad6 dt.microsecond) ++
  (match dt.tzOffsetMinutes with
   | none => []
   | some off =>
       [if off < 0 then '-' else '+'] ++ pad2 (off.natAbs / 60) ++ [':'] ++
       pad2 (off.natAbs % 60))

def PyDateTime.isoformat (dt : PyDateTime) : String := ⟨isoformatList dt⟩

/-- Days since an (arbitrary fixed) civil epoch, for comparing dates. -/
def daysFromCivil (y m d : Nat) : Nat :=
  let y2 := if m ≤ 2 then y - 1 else y
  let era := y2 / 400
  let yoe := y2 % 400
  let mp := (m + 9) % 12
  let doy := (153 * mp + 2) / 5 + d - 1
  let doe := yoe * 365 + yoe / 4 - yoe / 100 + doy
  era * 146097 + doe

/-- Absolute time key in microseconds (UTC-normalised for aware
datetimes); models how stored timestamps compare chronologically. -/
def PyDateTime.key (dt : PyDateTime) : Int :=
  ((daysFromCivil dt.year dt.month dt.day * 86400 + dt.hour * 3600 +
      dt.minute * 60 + dt.second : Nat) -
    (dt.tzOffsetMinutes.getD 0) * 60) * 1000000 + dt.microsecond

/-! ### Data model and endpoint handlers (from `src/backend/app.py`) -/

/-- One row of the `Emission` table. -/
structure Emission where
  id : Nat
  repo : String
  owner : String
  run_id : String
  co2 : Rat
  duration : Int
  machine_type : String
  badge : String
  timestamp : PyDateTime
deriving DecidableEq, Repr

/-- A JSON request body for `POST /record`: each of the eight fields the
handler reads is present or absent.  Numeric JSON values are carried
already coerced (`co2` as the `float(...)` result, `duration` as the
`int(...)` result). -/
structure Payload where
  repo : Option String
  owner : Option String
  run_id : Option String
  machine_type : Option String
  badge : Option String
  timestamp : Option String
  co2 : Option Rat
  duration : Option Int
deriving DecidableEq, Repr

/-- A payload with no fields models the empty JSON object `{}` (falsy in
Python, so `if not data` takes the 400 branch). -/
def Payload.isEmpty (p : Payload) : Bool :=
  p.repo.isNone && p.owner.isNone && p.run_id.isNone && p.machine_type.isNone &&
  p.badge.isNone && p.timestamp.isNone && p.co2.isNone && p.duration.isNone

/-- Model of Python `str.replace('Z', '+00:00')`: every `'Z'` is
replaced by the six characters `+00:00`. -/
def replaceZ : List Char → List Char
  | [] => []
  | c :: rest =>
      if c = 'Z' then '+' :: '0' :: '0' :: ':' :: '0' :: '0' :: replaceZ rest
      else c :: replaceZ rest

/-- `datetime.fromisoformat(data.get('timestamp', '').replace('Z', '+00:00'))`. -/
def parsePyTimestamp (t : Option String) : Option PyDateTime :=
  fromisoformatList (replaceZ (t.getD "").data)

/-- Outcome of the `POST /record` handler. -/
inductive RecordResult where
  | created (id : Nat)
  | badRequest
  | serverError
deriving DecidableEq, Repr

/-- HTTP status code of each `POST /record` outcome (201 / 400 / 500). -/
def RecordResult.statusCode : RecordResult → Nat
  | .created _ => 201
  | .badRequest => 400
  | .serverError => 500

/-- The `POST /record` handler: given the current store, the id the
database would assign next, and the request payload, returns the new
store and the response.  A raised exception (here: an unparseable
timestamp) is caught, the session rolled back, and a 500 returned. -/
def recordOp (s : List Emission) (nextId : Nat) (p : Payload) :
    List Emission × RecordResult :=
  if p.isEmpty then (s, .badRequest)
  else
    match parsePyTimestamp p.timestamp with
    | none => (s, .serverError)
    | some ts =>
        let e : Emission :=
          { id := nextId
            repo := p.repo.getD ""
            owner := p.owner.getD ""
            run_id := p.run_id.getD ""
            co2 := p.co2.getD 0
            duration := p.duration.getD 0
            machine_type := p.machine_type.getD ""
            badge := p.badge.getD ""
            timestamp := ts }
        (s ++ [e], .created nextId)

/-- Run a sequence of `POST /record` requests, threading the store and
the auto-incrementing id (which advances only on a successful insert). -/
def runIngest (s : List Emission) (nextId : Nat) : List Payload → List Emission
  | [] => s
  | p :: ps =>
      match recordOp s nextId p with
      | (s2, .created _) => runIngest s2 (nextId + 1) ps
      | (s2, _) => runIngest s2 nextId ps

/-- One entry of the `emissions` list in the `GET /stats` response. -/
structure EmissionJson where
  repo : String
  owner : String
  run_id : String
  co2 : Rat
  duration : Int
  machine_type : String
  badge : String
  timestamp : String
deriving DecidableEq, Repr

/-- The dictionary built for each record in the `/stats` handler. -/
def emissionJson (e : Emission) : EmissionJson :=
  { repo := e.repo
    owner := e.owner
    run_id := e.run_id
    co2 := e.co2
    duration := e.duration
    machine_type := e.machine_type
    badge := e.badge
    timestamp := e.timestamp.isoformat }

/-- The `badge_counts` dictionary (keys `Green`, `Yellow`, `Red`). -/
structure BadgeCounts where
  green : Nat
  yellow : Nat
  red : Nat
deriving DecidableEq, Repr

/-- `Emission.query.filter_by(badge=b).count()`. -/
def countBadge (s : List Emission) (b : String) : Nat :=
  (s.filter (fun e => e.badge = b)).length

/-- The `GET /stats` response body. -/
structure StatsOut where
  total_co2 : Rat
  average_co2 : Rat
  badge_counts : BadgeCounts
  emissions : List EmissionJson
deriving DecidableEq, Repr

/-- The `GET /stats` handler. -/
def statsOp (s : List Emission) : StatsOut :=
  let total : Rat := (s.map Emission.co2).sum
  { total_co2 := total
    average_co2 := if s.isEmpty then 0 else total / (s.length : Rat)
    badge_counts :=
      { green := countBadge s "Green"
        yellow := countBadge s "Yellow"
        red := countBadge s "Red" }
    emissions := s.map emissionJson }

/-- Fold step for `Emission.query.order_by(Emission.timestamp.desc()).first()`:
keep the record whose timestamp is strictly later. -/
def pickLatest (acc : Option Emission) (e : Emission) : Option Emission :=
  match acc with
  | none => some e
  | some m => if m.timestamp.key < e.timestamp.key then some e else some m

/-- The record with the greatest timestamp, or `none` on an empty store. -/
def latestOf (s : List Emission) : Option Emission := s.foldl pickLatest none

/-- The `GET /latest_co2_badge` response body (Shields.io descriptor). -/
structure BadgeOut where
  schemaVersion : Nat
  label : String
  message : String
  color : String
deriving DecidableEq, Repr

/-- The handler's `color_map.get(badge, "lightgrey")`. -/
def colorMap (b : String) : String :=
  if b = "Green" then "brightgreen"
  else if b = "Yellow" then "yellow"
  else if b = "Red" then "red"
  else "lightgrey"

/-- The `GET /latest_co2_badge` handler. -/
def latestCo2Badge (s : List Emission) : BadgeOut :=
  match latestOf s with
  | none => { schemaVersion := 1, label := "CO2", message := "No Data", color := "lightgrey" }
  | some e => { schemaVersion := 1, label := "CO2", message := e.badge, color := colorMap e.badge }

/-! ### Concrete test fixtures -/

/-- A fully populated valid payload. -/
def pGreen : Payload :=
  ⟨some "r", some "o", some "1", some "m", some "Green",
   some "2024-01-01T00:00:00Z", some (1/2), some 100⟩

/-- A payload with some data but no timestamp. -/
def pNoTs : Payload := ⟨some "r", none, none, none, none, none, none, none⟩

/-- A payload carrying a negative co2 and a negative duration. -/
def pNeg : Payload :=
  ⟨none, none, none, none, none, some "2024-01-01T00:00:00Z", some (-1), some (-5)⟩

/-- The empty JSON object `{}`. -/
def emptyPayload : Payload := ⟨none, none, none, none, none, none, none, none⟩

/-- The record that ingesting `pGreen` into an empty store creates. -/
def e0 : Emission :=
  ⟨1, "r", "o", "1", 1/2, 100, "m", "Green", ⟨2024, 1, 1, 0, 0, 0, 0, some 0⟩⟩

/-- A record whose badge is none of the three known values. -/
def ePurple : Emission :=
  ⟨1, "", "", "", 0, 0, "", "Purple", ⟨2024, 1, 1, 0, 0, 0, 0, none⟩⟩

/-- Record A of the claim's scenario (2024-01-01, Green). -/
def pA5 : Payload :=
  ⟨none, none, none, none, some "Green", some "2024-01-01T00:00:00Z", none, none⟩

/-- Record B of the claim's scenario (2024-01-05, Red). -/
def pB5 : Payload :=
  ⟨none, none, none, none, some "Red", some "2024-01-05T00:00:00Z", none, none⟩

/-- The store after ingesting A then B. -/
def sAB : List Emission := (recordOp (recordOp [] 1 pA5).1 2 pB5).1

/-- The store after ingesting B then A (so the LAST-inserted record is
the Green one, while the latest by timestamp is the Red one). -/
def sBA : List Emission := (recordOp (recordOp [] 1 pB5).1 2 pA5).1

/-- The stored record for B inside `sAB`. -/
def eB5 : Emission := ⟨2, "", "", "", 0, 0, "", "Red", ⟨2024, 1, 5, 0, 0, 0, 0, some 0⟩⟩

/-- The calendar/clock ranges Python's `datetime` guarantees for its
fields (`MINYEAR = 1`, `MAXYEAR = 9999`, real calendar dates). -/
def PyDateTime.valid (dt : PyDateTime) : Prop :=
  1 ≤ dt.year ∧ dt.year ≤ 9999 ∧ 1 ≤ dt.month ∧ dt.month ≤ 12 ∧
  1 ≤ dt.day ∧ dt.day ≤ daysInMonth dt.year dt.month ∧
  dt.hour < 24 ∧ dt.minute < 60 ∧ dt.second < 60 ∧ dt.microsecond < 1000000

/-! ### Helper lemmas -/

lemma parsePyTimestamp_none : parsePyTimestamp none = none := rfl

/-- An empty payload has no timestamp, so its timestamp never parses. -/
lemma parsePyTimestamp_of_isEmpty {p : Payload} (h : p.isEmpty = true) :
    parsePyTimestamp p.timestamp = none := by
  have ht : p.timestamp = none := by
    simp only [Payload.isEmpty, Bool.and_eq_true, Option.isNone_iff_eq_none] at h
    exact h.1.1.2
  rw [ht]
  rfl

/-- Characterisation of a successful `POST /record`: the timestamp
parsed, the new record is appended, and the payload's fields (with
defaults) are stored verbatim. -/
lemma recordOp_created {s : List Emission} {n : Nat} {p : Payload}
    {s2 : List Emission} {i : Nat}
    (h : recordOp s n p = (s2, RecordResult.created i)) :
    ∃ ts, parsePyTimestamp p.timestamp = some ts ∧ i = n ∧
      s2 = s ++ [{ id := n, repo := p.repo.getD "", owner := p.owner.getD "",
                   run_id := p.run_id.getD "", co2 := p.co2.getD 0,
                   duration := p.duration.getD 0,
                   machine_type := p.machine_type.getD "",
                   badge := p.badge.getD "", timestamp := ts }] := by
  by_cases hE : p.isEmpty = true
  · simp [recordOp, hE] at h
  · cases hm : parsePyTimestamp p.timestamp with
    | none => simp [recordOp, hE, hm] at h
    | some ts =>
        simp [recordOp, hE, hm] at h
        exact ⟨ts, rfl, h.2.symm, h.1.symm⟩

/-- A parsed timestamp forces the success branch of `POST /record`. -/
lemma recordOp_of_parse {s : List Emission} {n : Nat} {p : Payload} {ts : PyDateTime}
    (hm : parsePyTimestamp p.timestamp = some ts) :
    recordOp s n p =
      (s ++ [{ id := n, repo := p.repo.getD "", owner := p.owner.getD "",
               run_id := p.run_id.getD "", co2 := p.co2.getD 0,
               duration := p.duration.getD 0,
               machine_type := p.machine_type.getD "",
               badge := p.badge.getD "", timestamp := ts }],
       RecordResult.created n) := by
  have hE : ¬ p.isEmpty = true := fun hE => by
    rw [parsePyTimestamp_of_isEmpty hE] at hm; cases hm
  simp [recordOp, hE, hm]

/-! ### Claim theorems -/

/-- Claim C1: every record accepted by `POST /record` appears in the
`GET /stats` `emissions` list exactly once (appended at the end), with
every caller-supplied field preserved verbatim and the timestamp
rendered as ISO-8601; and the `emissions` list is always the full list
of stored records in insertion order. -/
theorem stats_roundtrip_insertion :
    (∀ s : List Emission, (statsOp s).emissions = s.map emissionJson) ∧
    (∀ (s : List Emission) (n : Nat) (p : Payload) (s2 : List Emission) (i : Nat),
      recordOp s n p = (s2, RecordResult.created i) →
      ∃ ts, parsePyTimestamp p.timestamp = some ts ∧
        (statsOp s2).emissions = (statsOp s).emissions ++
          [{ repo := p.repo.getD "", owner := p.owner.getD "",
             run_id := p.run_id.getD "", co2 := p.co2.getD 0,
             duration := p.duration.getD 0,
             machine_type := p.machine_type.getD "",
             badge := p.badge.getD "", timestamp := ts.isoformat }]) := by
  refine ⟨fun s => rfl, ?_⟩
  intro s n p s2 i h
  obtain ⟨ts, hts, _, hs⟩ := recordOp_created h
  subst hs
  exact ⟨ts, hts, by simp [statsOp, emissionJson]⟩

/-- Witness for C1 at a concrete ingest. -/
theorem stats_roundtrip_insertion_witness :
    (statsOp (recordOp [] 1 pGreen).1).emissions =
      [⟨"r", "o", "1", (1:Rat)/2, 100, "m", "Green", "2024-01-01T00:00:00+00:00"⟩] := by
  obtain ⟨ts, hts, h⟩ :=
    stats_roundtrip_insertion.2 [] 1 pGreen (recordOp [] 1 pGreen).1 1 rfl
  have h2 : some (⟨2024, 1, 1, 0, 0, 0, 0, some 0⟩ : PyDateTime) = some ts := by
    rw [← hts]; rfl
  cases h2
  rw [h]
  rfl

/-- Claim C2: `total_co2` is the sum of the stored records' `co2`
values, `0` on the empty store, and each successful ingest adds exactly
the ingested `co2` to it. -/
theorem stats_total_co2_correct :
    (∀ s : List Emission, (statsOp s).total_co2 = (s.map Emission.co2).sum) ∧
    ((statsOp []).total_co2 = 0) ∧
    (∀ (s : List Emission) (n : Nat) (p : Payload) (s2 : List Emission) (i : Nat),
      recordOp s n p = (s2, RecordResult.created i) →
      (statsOp s2).total_co2 = (statsOp s).total_co2 + p.co2.getD 0) := by
  refine ⟨fun s => rfl, rfl, ?_⟩
  intro s n p s2 i h
  obtain ⟨ts, _, _, hs⟩ := recordOp_created h
  subst hs
  simp [statsOp]

/-- Witness for C2 at a concrete ingest. -/
theorem stats_total_co2_correct_witness :
    (statsOp (recordOp [] 1 pGreen).1).total_co2 = (1:Rat)/2 := by
  have h := stats_total_co2_correct.2.2 [] 1 pGreen (recordOp [] 1 pGreen).1 1 rfl
  rw [h]
  simp [statsOp, pGreen]

/-- Claim C3: `average_co2` equals `total_co2 / count` when the store is
non-empty and `0` when it is empty (no division by zero occurs). -/
theorem stats_average_co2_correct :
    ∀ s : List Emission,
      (0 < s.length →
        (statsOp s).average_co2 = (statsOp s).total_co2 / (s.length : Rat)) ∧
      (s.length = 0 → (statsOp s).average_co2 = 0) := by
  intro s
  cases s with
  | nil => exact ⟨fun h => absurd h (by simp), fun _ => rfl⟩
  | cons a t => exact ⟨fun _ => rfl, fun h => by simp at h⟩

/-- Witness for C3 on a one-record store and on the empty store. -/
theorem stats_average_co2_correct_witness :
    (statsOp (recordOp [] 1 pGreen).1).average_co2 = (1:Rat)/2 ∧
    (statsOp []).average_co2 = 0 := by
  have hst : (recordOp [] 1 pGreen).1 = [e0] := rfl
  have h1 := (stats_average_co2_correct (recordOp [] 1 pGreen).1).1 (by rw [hst]; decide)
  have h2 := (stats_average_co2_correct []).2 rfl
  refine ⟨?_, h2⟩
  rw [h1, hst]
  norm_num [statsOp, e0]

/-- Claim C7: a `POST /record` whose payload is missing the timestamp,
or whose timestamp does not parse, fails with an error response and
leaves the store exactly as it was (atomicity / rollback). -/
theorem record_missing_timestamp_atomic :
    ∀ (s : List Emission) (n : Nat) (p : Payload),
      (p.timestamp = none ∨ parsePyTimestamp p.timestamp = none) →
      (recordOp s n p).1 = s ∧
      (∀ i, (recordOp s n p).2 ≠ RecordResult.created i) ∧
      ((recordOp s n p).2.statusCode = 400 ∨ (recordOp s n p).2.statusCode = 500) := by
  intro s n p h
  have hp : parsePyTimestamp p.timestamp = none := by
    rcases h with h | h
    · rw [h]; rfl
    · exact h
  by_cases hE : p.isEmpty = true
  · refine ⟨by simp [recordOp, hE], fun i => by simp [recordOp, hE], ?_⟩
    simp [recordOp, hE, RecordResult.statusCode]
  · refine ⟨by simp [recordOp, hE, hp], fun i => by simp [recordOp, hE, hp], ?_⟩
    simp [recordOp, hE, hp, RecordResult.statusCode]

/-- Witness for C7 at a concrete timestamp-less payload. -/
theorem record_missing_timestamp_atomic_witness :
    (recordOp [] 1 pNoTs).1 = [] ∧ (recordOp [] 1 pNoTs).2 ≠ RecordResult.created 1 := by
  have h := record_missing_timestamp_atomic [] 1 pNoTs (Or.inl rfl)
  exact ⟨h.1, h.2.1 1⟩

/-- Counterexample for C9: `POST /record` accepts and stores a record
with negative `co2` and negative `duration` — the handler performs no
sign validation. -/
theorem record_stores_negative_co2 :
    (recordOp [] 1 pNeg).2 = RecordResult.created 1 ∧
    ((recordOp [] 1 pNeg).1.map Emission.co2) = [(-1 : Rat)] ∧
    ((recordOp [] 1 pNeg).1.map Emission.duration) = [(-5 : Int)] ∧
    ((-1 : Rat) < 0 ∧ (-5 : Int) < 0) := by
  refine ⟨rfl, rfl, rfl, by decide⟩

/-- Amended C9: non-negativity of `co2` and `duration` is preserved by
ingestion only under the assumption that the payload's `co2` and
`duration` (after defaulting) are non-negative; the handler itself
checks nothing. -/
theorem record_preserves_nonneg_of_nonneg_inputs :
    ∀ (s : List Emission) (n : Nat) (p : Payload),
      (∀ e ∈ s, 0 ≤ e.co2 ∧ 0 ≤ e.duration) →
      0 ≤ p.co2.getD 0 → 0 ≤ p.duration.getD 0 →
      ∀ e ∈ (recordOp s n p).1, 0 ≤ e.co2 ∧ 0 ≤ e.duration := by
  intro s n p hs hc hd e he
  by_cases hE : p.isEmpty = true
  · exact hs e (by simpa [recordOp, hE] using he)
  · cases hm : parsePyTimestamp p.timestamp with
    | none => exact hs e (by simpa [recordOp, hE, hm] using he)
    | some ts =>
        rw [recordOp_of_parse hm] at he
        rcases List.mem_append.mp he with h | h
        · exact hs e h
        · rcases List.mem_singleton.mp h with rfl
          exact ⟨hc, hd⟩

/-- Witness for the amended C9 at a concrete ingest. -/
theorem record_preserves_nonneg_witness : 0 ≤ e0.co2 ∧ 0 ≤ e0.duration :=
  record_preserves_nonneg_of_nonneg_inputs [] 1 pGreen (by simp)
    (by norm_num [pGreen]) (by norm_num [pGreen]) e0
    (by rw [(rfl : (recordOp [] 1 pGreen).1 = [e0])]; exact List.mem_singleton.mpr rfl)

/-- Claim C10: `POST /record` with the empty JSON object returns
status 400 and appends nothing — the per-field defaults are never
applied to a wholly empty payload. -/
theorem record_empty_object_rejected :
    ∀ (s : List Emission) (n : Nat) (p : Payload), p.isEmpty = true →
      recordOp s n p = (s, RecordResult.badRequest) ∧
      (recordOp s n p).2.statusCode = 400 := by
  intro s n p h
  have heq : recordOp s n p = (s, RecordResult.badRequest) := by
    simp [recordOp, h]
  exact ⟨heq, by rw [heq]; rfl⟩

/-- Witness for C10 on the empty store. -/
theorem record_empty_object_rejected_witness :
    recordOp [] 0 emptyPayload = ([], RecordResult.badRequest) :=
  (record_empty_object_rejected [] 0 emptyPayload rfl).1


lemma countBadge_eq_countP (s : List Emission) (b : String) :
    countBadge s b = s.countP (fun e => decide (e.badge = b)) :=
  (List.countP_eq_length_filter _ _).symm

/-- A single badge string matches at most one of the three known
values, so the indicator counts add up to the indicator of the union. -/
lemma badge_ite_three (b : String) :
    ((if b = "Green" then 1 else 0) + (if b = "Yellow" then 1 else 0) +
      (if b = "Red" then 1 else 0) : Nat) =
      (if (b = "Green" ∨ b = "Yellow" ∨ b = "Red") then 1 else 0) := by
  by_cases h1 : b = "Green"
  · subst h1; decide
  · by_cases h2 : b = "Yellow"
    · subst h2; decide
    · by_cases h3 : b = "Red"
      · subst h3; decide
      · simp [h1, h2, h3]

lemma countBadge_sum (s : List Emission) :
    countBadge s "Green" + countBadge s "Yellow" + countBadge s "Red" =
      s.countP (fun e =>
        decide (e.badge = "Green" ∨ e.badge = "Yellow" ∨ e.badge = "Red")) := by
  induction s with
  | nil => rfl
  | cons a t ih =>
      simp only [countBadge_eq_countP, List.countP_cons, decide_eq_true_eq] at ih ⊢
      have h := badge_ite_three a.badge
      omega

/-- Claim C4: each `badge_counts` entry equals the number of stored
records with exactly that badge (so it is `0` when the badge never
occurs), and a record whose badge is outside `{Green, Yellow, Red}` is
counted in none of the three entries: the three counts add up to the
number of records whose badge is one of the three values. -/
theorem stats_badge_counts_correct :
    ∀ s : List Emission,
      (statsOp s).badge_counts.green = s.countP (fun e => decide (e.badge = "Green")) ∧
      (statsOp s).badge_counts.yellow = s.countP (fun e => decide (e.badge = "Yellow")) ∧
      (statsOp s).badge_counts.red = s.countP (fun e => decide (e.badge = "Red")) ∧
      ((statsOp s).badge_counts.green + (statsOp s).badge_counts.yellow +
          (statsOp s).badge_counts.red =
        s.countP (fun e =>
          decide (e.badge = "Green" ∨ e.badge = "Yellow" ∨ e.badge = "Red"))) ∧
      ((∀ e ∈ s, e.badge ≠ "Green") → (statsOp s).badge_counts.green = 0) := by
  intro s
  refine ⟨countBadge_eq_countP s "Green", countBadge_eq_countP s "Yellow",
    countBadge_eq_countP s "Red", countBadge_sum s, ?_⟩
  intro h
  have : (statsOp s).badge_counts.green = s.countP (fun e => decide (e.badge = "Green")) :=
    countBadge_eq_countP s "Green"
  rw [this, List.countP_eq_zero]
  intro e he
  simpa using h e he

/-- Witness for C4 on a store holding one unrecognized badge. -/
theorem stats_badge_counts_correct_witness :
    (statsOp [ePurple]).badge_counts.green = 0 ∧
    (statsOp [ePurple]).badge_counts.green + (statsOp [ePurple]).badge_counts.yellow +
      (statsOp [ePurple]).badge_counts.red = 0 := by
  have h := stats_badge_counts_correct [ePurple]
  refine ⟨h.2.2.2.2 (by decide), ?_⟩
  rw [h.2.2.2.1]
  decide

/-- The fold computing the most recent record always yields a record of
the list (or the seed) attaining the maximal timestamp key. -/
lemma foldl_pickLatest (l : List Emission) (m : Emission) :
    ∃ r, l.foldl pickLatest (some m) = some r ∧ (r = m ∨ r ∈ l) ∧
      m.timestamp.key ≤ r.timestamp.key ∧
      ∀ x ∈ l, x.timestamp.key ≤ r.timestamp.key := by
  induction l generalizing m with
  | nil => exact ⟨m, rfl, Or.inl rfl, le_refl _, by simp⟩
  | cons a t ih =>
      simp only [List.foldl_cons]
      have hp : pickLatest (some m) a =
          if m.timestamp.key < a.timestamp.key then some a else some m := rfl
      by_cases hlt : m.timestamp.key < a.timestamp.key
      · rw [hp, if_pos hlt]
        obtain ⟨r, h1, h2, h3, h4⟩ := ih a
        refine ⟨r, h1, ?_, le_of_lt (lt_of_lt_of_le hlt h3), ?_⟩
        · rcases h2 with h | h
          · exact Or.inr (h ▸ List.mem_cons_self a t)
          · exact Or.inr (List.mem_cons_of_mem a h)
        · intro x hx
          rcases List.mem_cons.mp hx with rfl | hx
          · exact h3
          · exact h4 x hx
      · rw [hp, if_neg hlt]
        obtain ⟨r, h1, h2, h3, h4⟩ := ih m
        refine ⟨r, h1, ?_, h3, ?_⟩
        · rcases h2 with h | h
          · exact Or.inl h
          · exact Or.inr (List.mem_cons_of_mem a h)
        · intro x hx
          rcases List.mem_cons.mp hx with rfl | hx
          · exact le_trans (le_of_not_lt hlt) h3
          · exact h4 x hx

lemma latestOf_spec {s : List Emission} {e : Emission} (h : latestOf s = some e) :
    e ∈ s ∧ ∀ x ∈ s, x.timestamp.key ≤ e.timestamp.key := by
  cases s with
  | nil => cases h
  | cons a t =>
      obtain ⟨r, h1, h2, h3, h4⟩ := foldl_pickLatest t a
      have hre : r = e := by
        have h' : latestOf (a :: t) = t.foldl pickLatest (some a) := rfl
        rw [h', h1] at h
        exact Option.some.inj h
      subst hre
      refine ⟨?_, ?_⟩
      · rcases h2 with h | h
        · exact h ▸ List.mem_cons_self a t
        · exact List.mem_cons_of_mem a h
      · intro x hx
        rcases List.mem_cons.mp hx with rfl | hx
        · exact h3
        · exact h4 x hx

lemma latestOf_nonempty {s : List Emission} (h : s ≠ []) : ∃ e, latestOf s = some e := by
  cases s with
  | nil => exact absurd rfl h
  | cons a t =>
      obtain ⟨r, h1, -⟩ := foldl_pickLatest t a
      exact ⟨r, h1⟩

/-- Claim C5: on a non-empty store, `GET /latest_co2_badge` reports the
badge of a stored record whose timestamp is maximal — ordering is by
timestamp, not insertion order. -/
theorem latest_badge_greatest_timestamp :
    ∀ (s : List Emission) (e : Emission), latestOf s = some e →
      e ∈ s ∧ (∀ x ∈ s, x.timestamp.key ≤ e.timestamp.key) ∧
      (latestCo2Badge s).message = e.badge := by
  intro s e h
  obtain ⟨h1, h2⟩ := latestOf_spec h
  exact ⟨h1, h2, by simp [latestCo2Badge, h]⟩


/-- Witness for C5: the claim's concrete scenario returns
`message="Red", color="red"`, and even with the insertion order
reversed the reported badge is still the one with the greatest
timestamp, not the last-inserted record's. -/
theorem latest_badge_greatest_timestamp_witness :
    (latestCo2Badge sAB).message = "Red" ∧ (latestCo2Badge sAB).color = "red" ∧
    (latestCo2Badge sBA).message = "Red" ∧
    (sBA.getLast?).map Emission.badge = some "Green" := by
  have hs : latestOf sAB = some eB5 := by decide
  have h := latest_badge_greatest_timestamp sAB eB5 hs
  exact ⟨h.2.2.trans rfl, by decide, by decide, by decide⟩

/-- Claim C6: on an empty store `GET /latest_co2_badge` returns the
normal response `message="No Data", color="lightgrey"`; on a non-empty
store a most-recent record exists, the message is its badge, and the
color is brightgreen/yellow/red for Green/Yellow/Red, `lightgrey` for
any other badge value. -/
theorem latest_badge_empty_and_colors :
    ((latestCo2Badge []).message = "No Data" ∧ (latestCo2Badge []).color = "lightgrey") ∧
    (∀ s : List Emission, s ≠ [] → ∃ e, latestOf s = some e) ∧
    (∀ (s : List Emission) (e : Emission), latestOf s = some e →
      (latestCo2Badge s).message = e.badge ∧
      (latestCo2Badge s).color =
        (if e.badge = "Green" then "brightgreen"
         else if e.badge = "Yellow" then "yellow"
         else if e.badge = "Red" then "red" else "lightgrey")) := by
  refine ⟨⟨rfl, rfl⟩, fun s h => latestOf_nonempty h, ?_⟩
  intro s e h
  constructor
  · simp [latestCo2Badge, h]
  · simp [latestCo2Badge, h, colorMap]

/-- Witness for C6 on a store whose only badge is unrecognized. -/
theorem latest_badge_empty_and_colors_witness :
    (latestCo2Badge [ePurple]).message = "Purple" ∧
    (latestCo2Badge [ePurple]).color = "lightgrey" := by
  have h := latest_badge_empty_and_colors.2.2 [ePurple] ePurple rfl
  exact ⟨h.1, h.2.trans (by decide)⟩


/-! ### Print/parse digit lemmas -/

lemma digitChar_isDigit (n : Nat) : (digitChar n).isDigit = true := by
  have key : ∀ k, k < 10 → (digitChar k).isDigit = true := by decide
  have e : digitChar n = digitChar (n % 10) := by
    unfold digitChar
    congr 1
    omega
  rw [e]
  exact key _ (Nat.mod_lt _ (by norm_num))

lemma digVal_digitChar (n : Nat) : digVal (digitChar n) = n % 10 := by
  have key : ∀ k, k < 10 → digVal (digitChar k) = k := by decide
  have e : digitChar n = digitChar (n % 10) := by
    unfold digitChar
    congr 1
    omega
  rw [e, key _ (Nat.mod_lt _ (by norm_num))]

lemma digitChar_ne_Z (n : Nat) : digitChar n ≠ 'Z' := by
  have key : ∀ k, k < 10 → digitChar k ≠ 'Z' := by decide
  have e : digitChar n = digitChar (n % 10) := by
    unfold digitChar
    congr 1
    omega
  rw [e]
  exact key _ (Nat.mod_lt _ (by norm_num))

lemma d2_pad (n : Nat) (hn : n < 100) :
    d2 (digitChar (n / 10)) (digitChar n) = some n := by
  unfold d2
  rw [if_pos ⟨digitChar_isDigit _, digitChar_isDigit _⟩, digVal_digitChar,
    digVal_digitChar]
  congr 1
  omega

lemma d4_pad (n : Nat) (hn : n < 10000) :
    d4 (digitChar (n / 1000)) (digitChar (n / 100)) (digitChar (n / 10))
      (digitChar n) = some n := by
  unfold d4
  rw [if_pos ⟨digitChar_isDigit _, digitChar_isDigit _, digitChar_isDigit _,
    digitChar_isDigit _⟩]
  rw [digVal_digitChar, digVal_digitChar, digVal_digitChar, digVal_digitChar]
  congr 1
  omega

lemma digitsVal_pad6 (n : Nat) (h : n < 1000000) : digitsVal (pad6 n) = n := by
  simp only [digitsVal, pad6, List.foldl_cons, List.foldl_nil, digVal_digitChar]
  omega

lemma pad6_digits (n : Nat) : ∀ c ∈ pad6 n, c.isDigit = true := by
  intro c hc
  simp only [pad6, List.mem_cons, List.not_mem_nil, or_false] at hc
  rcases hc with rfl | rfl | rfl | rfl | rfl | rfl <;> exact digitChar_isDigit _

lemma takeWhile_all {p : Char → Bool} (l rest : List Char)
    (hl : ∀ c ∈ l, p c = true)
    (hrest : rest = [] ∨ ∃ c r2, rest = c :: r2 ∧ p c = false) :
    (l ++ rest).takeWhile p = l ∧ (l ++ rest).dropWhile p = rest := by
  induction l with
  | nil =>
      rcases hrest with rfl | ⟨c, r2, rfl, hc⟩
      · exact ⟨rfl, rfl⟩
      · simp [List.takeWhile_cons, List.dropWhile_cons, hc]
  | cons a t ih =>
      have ha : p a = true := hl a (List.mem_cons_self a t)
      obtain ⟨h1, h2⟩ := ih (fun c hc => hl c (List.mem_cons_of_mem a hc))
      simp [List.takeWhile_cons, List.dropWhile_cons, ha, h1, h2]

/-! ### Parsing the printed form -/

lemma daysInMonth_le (y m : Nat) : daysInMonth y m ≤ 31 := by
  unfold daysInMonth
  split
  · split <;> norm_num
  · split <;> norm_num

lemma parseDate_pad (y mo dy : Nat) (rest : List Char)
    (hy1 : 1 ≤ y) (hy2 : y ≤ 9999) (hm1 : 1 ≤ mo) (hm2 : mo ≤ 12)
    (hd1 : 1 ≤ dy) (hd2 : dy ≤ daysInMonth y mo) :
    parseDate (pad4 y ++ ['-'] ++ pad2 mo ++ ['-'] ++ pad2 dy ++ rest) =
      some (y, mo, dy, rest) := by
  have hdm := daysInMonth_le y mo
  show parseDate (digitChar (y / 1000) :: digitChar (y / 100) :: digitChar (y / 10) ::
      digitChar y :: '-' :: digitChar (mo / 10) :: digitChar mo :: '-' ::
      digitChar (dy / 10) :: digitChar dy :: rest) = some (y, mo, dy, rest)
  simp only [parseDate, d4_pad y (by omega), d2_pad mo (by omega),
    d2_pad dy (by omega), Option.bind_eq_bind, Option.some_bind]
  rw [if_pos ⟨hy1, hm1, hm2, hd1, hd2⟩]

lemma parseHMS_pad (h mi s us : Nat) (rest : List Char)
    (hh : h < 24) (hmi : mi < 60) (hs : s < 60) (hus : us < 1000000)
    (hrest : rest = [] ∨ ∃ r2, rest = '+' :: r2) :
    parseHMS (pad2 h ++ [':'] ++ pad2 mi ++ [':'] ++ pad2 s ++
      (if us = 0 then [] else ['.'] ++ pad6 us) ++ rest) =
      some (h, mi, s, us, rest) := by
  by_cases hz : us = 0
  · subst hz
    show parseHMS (digitChar (h / 10) :: digitChar h :: ':' :: digitChar (mi / 10) ::
        digitChar mi :: ':' :: digitChar (s / 10) :: digitChar s :: rest) =
        some (h, mi, s, 0, rest)
    simp only [parseHMS, d2_pad h (by omega), d2_pad mi (by omega),
      d2_pad s (by omega), Option.bind_eq_bind, Option.some_bind]
    rw [if_pos ⟨hh, hmi⟩, if_pos hs]
    rcases hrest with rfl | ⟨r2, rfl⟩ <;> rfl
  · have hshape : (if us = 0 then ([] : List Char) else ['.'] ++ pad6 us) =
        '.' :: pad6 us := by rw [if_neg hz]; rfl
    rw [hshape]
    show parseHMS (digitChar (h / 10) :: digitChar h :: ':' :: digitChar (mi / 10) ::
        digitChar mi :: ':' :: digitChar (s / 10) :: digitChar s :: '.' ::
        (pad6 us ++ rest)) = some (h, mi, s, us, rest)
    simp only [parseHMS, d2_pad h (by omega), d2_pad mi (by omega),
      d2_pad s (by omega), Option.bind_eq_bind, Option.some_bind]
    rw [if_pos ⟨hh, hmi⟩, if_pos hs]
    obtain ⟨htw, hdw⟩ := takeWhile_all (pad6 us) rest (pad6_digits us)
      (by rcases hrest with rfl | ⟨r2, rfl⟩
          · exact Or.inl rfl
          · exact Or.inr ⟨'+', r2, rfl, rfl⟩)
    rw [htw, hdw]
    have hlen : (pad6 us).length = 6 := rfl
    rw [if_pos (by rw [hlen]; omega)]
    rw [hlen, digitsVal_pad6 us hus]
    norm_num

lemma parseOffset_utc (rest : List Char) :
    parseOffset ('+' :: '0' :: '0' :: ':' :: '0' :: '0' :: rest) = some (0, rest) := rfl

/-! ### `str.replace('Z', '+00:00')` on printed timestamps -/

lemma replaceZ_hom (l1 l2 : List Char) :
    replaceZ (l1 ++ l2) = replaceZ l1 ++ replaceZ l2 := by
  induction l1 with
  | nil => rfl
  | cons a t ih => by_cases h : a = 'Z' <;> simp [replaceZ, h, ih]

lemma replaceZ_of_no_Z (l : List Char) (h : ∀ c ∈ l, c ≠ 'Z') : replaceZ l = l := by
  induction l with
  | nil => rfl
  | cons a t ih =>
      have ha : a ≠ 'Z' := h a (List.mem_cons_self a t)
      simp [replaceZ, ha, ih (fun c hc => h c (List.mem_cons_of_mem a hc))]

lemma replaceZ_pad2 (n : Nat) : replaceZ (pad2 n) = pad2 n :=
  replaceZ_of_no_Z _ (by
    intro c hc
    simp only [pad2, List.mem_cons, List.not_mem_nil, or_false] at hc
    rcases hc with rfl | rfl <;> exact digitChar_ne_Z _)

lemma replaceZ_pad4 (n : Nat) : replaceZ (pad4 n) = pad4 n :=
  replaceZ_of_no_Z _ (by
    intro c hc
    simp only [pad4, List.mem_cons, List.not_mem_nil, or_false] at hc
    rcases hc with rfl | rfl | rfl | rfl <;> exact digitChar_ne_Z _)

lemma replaceZ_pad6 (n : Nat) : replaceZ (pad6 n) = pad6 n :=
  replaceZ_of_no_Z _ (by
    intro c hc
    rcases List.mem_cons.mp hc with rfl | hc
    · exact digitChar_ne_Z _
    · intro he
      have := pad6_digits n c (List.mem_cons_of_mem _ hc)
      rw [he] at this
      cases this)

lemma replaceZ_cons (c : Char) (h : c ≠ 'Z') (l : List Char) :
    replaceZ (c :: l) = c :: replaceZ l := by
  simp [replaceZ, h]

lemma replaceZ_iso (dt : PyDateTime) (htz : dt.tzOffsetMinutes = none) :
    replaceZ (isoformatList dt) = isoformatList dt := by
  by_cases hm : dt.microsecond = 0 <;>
    simp [isoformatList, htz, hm, replaceZ_hom, replaceZ_pad2, replaceZ_pad4,
      replaceZ_pad6, replaceZ_cons '-' (by decide), replaceZ_cons ':' (by decide),
      replaceZ_cons 'T' (by decide), replaceZ_cons '.' (by decide)]

/-! ### The round trip -/

lemma fromiso_print_utc (dt : PyDateTime) (hv : dt.valid)
    (htz : dt.tzOffsetMinutes = none) :
    fromisoformatList (isoformatList dt ++ ['+', '0', '0', ':', '0', '0']) =
      some { dt with tzOffsetMinutes := some 0 } := by
  obtain ⟨hy1, hy2, hm1, hm2, hd1, hd2, hh, hmi, hs, hus⟩ := hv
  have hiso : isoformatList dt ++ ['+', '0', '0', ':', '0', '0'] =
      pad4 dt.year ++ ['-'] ++ pad2 dt.month ++ ['-'] ++ pad2 dt.day ++
        ('T' :: (pad2 dt.hour ++ [':'] ++ pad2 dt.minute ++ [':'] ++ pad2 dt.second ++
          (if dt.microsecond = 0 then [] else ['.'] ++ pad6 dt.microsecond) ++
          ['+', '0', '0', ':', '0', '0'])) := by
    simp [isoformatList, htz, List.append_assoc]
  rw [hiso]
  simp only [fromisoformatList,
    parseDate_pad dt.year dt.month dt.day _ hy1 hy2 hm1 hm2 hd1 hd2,
    Option.bind_eq_bind, Option.some_bind]
  rw [if_pos (Or.inl trivial)]
  simp only [parseHMS_pad dt.hour dt.minute dt.second dt.microsecond
      ['+', '0', '0', ':', '0', '0'] hh hmi hs hus (Or.inr ⟨_, rfl⟩),
    Option.bind_eq_bind, Option.some_bind]
  rw [parseOffset_utc]
  rfl

lemma parsePy_trailing_Z (dt : PyDateTime) (hv : dt.valid)
    (htz : dt.tzOffsetMinutes = none) :
    parsePyTimestamp (some (dt.isoformat ++ "Z")) =
      some { dt with tzOffsetMinutes := some 0 } := by
  have hdata : ((some (dt.isoformat ++ "Z")).getD "").data =
      isoformatList dt ++ ['Z'] := by
    show (dt.isoformat ++ "Z").data = isoformatList dt ++ ['Z']
    rw [String.data_append]
    rfl
  unfold parsePyTimestamp
  rw [hdata, replaceZ_hom, replaceZ_iso dt htz]
  exact fromiso_print_utc dt hv htz

/-- Claim C8: for any payload whose timestamp parses, absent numeric
fields default to `0` and absent string fields to `""` in the stored
record; and a canonical ISO-8601 timestamp with a trailing `Z` is
accepted and interpreted as the UTC instant it denotes (offset `+00:00`
with all clock fields unchanged). -/
theorem record_defaults_and_trailing_z :
    (∀ (s : List Emission) (n : Nat) (p : Payload) (ts : PyDateTime),
      parsePyTimestamp p.timestamp = some ts →
      recordOp s n p =
        (s ++ [{ id := n, repo := p.repo.getD "", owner := p.owner.getD "",
                 run_id := p.run_id.getD "", co2 := p.co2.getD 0,
                 duration := p.duration.getD 0,
                 machine_type := p.machine_type.getD "",
                 badge := p.badge.getD "", timestamp := ts }],
         RecordResult.created n)) ∧
    (∀ dt : PyDateTime, dt.valid → dt.tzOffsetMinutes = none →
      parsePyTimestamp (some (dt.isoformat ++ "Z")) =
        some { dt with tzOffsetMinutes := some 0 }) :=
  ⟨fun _ _ _ _ h => recordOp_of_parse h, fun dt hv htz => parsePy_trailing_Z dt hv htz⟩

/-- Witness for C8: a concrete defaulted ingest, and a concrete
trailing-`Z` timestamp with microseconds parsed as UTC. -/
theorem record_defaults_and_trailing_z_witness :
    recordOp [] 1 pGreen = ([e0], RecordResult.created 1) ∧
    parsePyTimestamp
        (some ((⟨2024, 1, 5, 6, 7, 8, 123456, none⟩ : PyDateTime).isoformat ++ "Z")) =
      some ⟨2024, 1, 5, 6, 7, 8, 123456, some 0⟩ := by
  constructor
  · exact record_defaults_and_trailing_z.1 [] 1 pGreen ⟨2024, 1, 1, 0, 0, 0, 0, some 0⟩ rfl
  · exact record_defaults_and_trailing_z.2 ⟨2024, 1, 5, 6, 7, 8, 123456, none⟩
      (by constructor <;> norm_num [daysInMonth, isLeap]) rfl

end CarbonCost
